import Mathlib

/-!
Shallow embedding of the detection engine of this repository
(`src/detection.py`, class `EnhancedDetectionEngine`), together with the
configuration facts it reads (`src/config.py`).

The face-embedding service, the video decoder and the filesystem are external
collaborators; their per-frame answers are supplied as input data:

* a detected face carries, for each loaded reference encoding in order, the
  pair the service returns for it (`compare_faces` boolean, `face_distance`
  value), plus the grayscale standard deviation of its cropped region;
* a frame carries `some faces` when the detection/encoding/matching work for
  the frame returns, and `none` when that work raises an exception
  (`process_video` wraps none of it in a try/except, so the embedding makes
  the raise visible as an `Except.error`);
* a reference image path is represented by what loading it produces.

Numbers that are Python floats in the source (distances, thresholds, fps,
durations) are embedded as `ℚ`; frame indices and counters keep their integer
types.  State that lives on the engine object (`self.…`) is one record,
threaded explicitly; local variables of `process_video` (`match_count`,
`current_frame`) live in the same record but are re-initialised at the top of
each run exactly where the source initialises them.  Ghost fields
(`closedSessions`, `openedCount`, `closedCount`, `progressCalls`,
`frameCalls`) record externally visible events (writer lifecycle, callback
invocations) without influencing control flow.
-/

/-- One detection record, as built at `src/detection.py:189`-`195`
(the string-valued fields `timestamp` and `image_path` are derived from the
clock and the filesystem; the fields the claims speak about are kept). -/
structure DetectionRecord where
  frame : Nat
  confidence : ℚ
  mask : Bool
deriving DecidableEq, Repr

/-- One output clip writer (`cv2.VideoWriter`), with ghost data: the frame
index of the iteration that opened it and the indices of the frames written
into it, in order. -/
structure ClipSession where
  openFrame : Nat
  writtenFrames : List Nat
deriving DecidableEq, Repr

/-- The run parameters `process_video` reads: the four configuration values
the engine caches in `__init__` (`src/detection.py:27`-`30`) and the two
stream properties read from the opened capture (`src/detection.py:128`-`129`). -/
structure RunParams where
  frame_skip : Nat
  detection_threshold : ℚ
  mask_std_threshold : ℚ
  clip_duration : ℚ
  fps : ℚ
  total_frames : Nat
deriving DecidableEq, Repr

/-- The engine-object state mutated by `process_video`, plus ghost event
logs.  `matchCount` embeds the local variable `match_count`;
`matchesList` embeds the source attribute `matches`, a Lean keyword;
`progressCalls` and `frameCalls` log the arguments of the progress and
frame-preview callback invocations; `closedSessions`, `openedCount` and
`closedCount` log the clip-writer lifecycle. -/
structure EngineState where
  matchCount : Nat
  report_data : List DetectionRecord
  matchesList : List DetectionRecord
  detection_path : List (Int × Int)
  current_clip_writer : Option ClipSession
  clip_frames_remaining : Int
  closedSessions : List ClipSession
  openedCount : Nat
  closedCount : Nat
  progressCalls : List ℚ
  frameCalls : List Nat
deriving DecidableEq, Repr

/-- The engine state `__init__` builds (`src/detection.py:31`-`38`). -/
def initEngineState : EngineState :=
  { matchCount := 0
    report_data := []
    matchesList := []
    detection_path := []
    current_clip_writer := none
    clip_frames_remaining := 0
    closedSessions := []
    openedCount := 0
    closedCount := 0
    progressCalls := []
    frameCalls := [] }

/-- One face the embedding service detects in a frame: its bounding box
(`top, right, bottom, left` as `face_locations` orders them), the
(`compare_faces`, `face_distance`) answer for each reference encoding in
order, and the grayscale standard deviation of the cropped face region that
`_detect_mask` computes. -/
structure FaceObservation where
  top : Int
  right : Int
  bottom : Int
  left : Int
  refResults : List (Bool × ℚ)
  maskStd : ℚ
deriving DecidableEq, Repr

/-- What one frame's full analysis yields: `some faces` when the
detection/encoding/matching calls return, `none` when one of them raises. -/
structure FrameData where
  faces : Option (List FaceObservation)
deriving DecidableEq, Repr

/-- Python's `int()` applied to a rational value: truncation toward zero.
`_start_video_clip` computes `int(fps * self.clip_duration)`
(`src/detection.py:105`). -/
def pyInt (q : ℚ) : Int :=
  if 0 ≤ q then ⌊q⌋ else -⌊-q⌋

/-- The inner reference loop of `process_video` (`src/detection.py:163`-`171`):
fold over the per-reference service answers, starting from
`match_found = False`, `best_confidence = 0`; a reference with
`matches[0] and confidence <= self.confidence_threshold` sets the flag and
takes `max(best_confidence, 1 - confidence)`. -/
def matchResult (threshold : ℚ) (refs : List (Bool × ℚ)) : Bool × ℚ :=
  refs.foldl
    (fun acc r => if r.1 && decide (r.2 ≤ threshold) then (true, max acc.2 (1 - r.2)) else acc)
    (false, 0)

/-- The references that satisfy the source's dual condition
`matches[0] and confidence <= self.confidence_threshold`
(`src/detection.py:169`). -/
def qualifying (threshold : ℚ) (refs : List (Bool × ℚ)) : List (Bool × ℚ) :=
  refs.filter (fun r => r.1 && decide (r.2 ≤ threshold))

/-- `_detect_mask` (`src/detection.py:74`-`88`): mask iff the grayscale
standard deviation is strictly below the configured threshold. -/
def detect_mask (mask_std_threshold faceStd : ℚ) : Bool :=
  decide (faceStd < mask_std_threshold)

/-- `_start_video_clip` (`src/detection.py:90`-`106`): open a fresh writer and
set `clip_frames_remaining = int(fps * self.clip_duration)`.  The ghost
`openedCount` counts writer openings. -/
def start_video_clip (p : RunParams) (current_frame : Nat) (s : EngineState) : EngineState :=
  { s with
    current_clip_writer := some { openFrame := current_frame, writtenFrames := [] }
    clip_frames_remaining := pyInt (p.fps * p.clip_duration)
    openedCount := s.openedCount + 1 }

/-- The clip-recording block at the top of each loop iteration
(`src/detection.py:146`-`151`): if a writer is active, write the current
frame, decrement the counter, and release the writer once the counter is
`<= 0`.  The ghost fields log the write and the close. -/
def clip_write_phase (current_frame : Nat) (s : EngineState) : EngineState :=
  match s.current_clip_writer with
  | none => s
  | some w =>
    let w' := { w with writtenFrames := w.writtenFrames ++ [current_frame] }
    let rem := s.clip_frames_remaining - 1
    if rem ≤ 0 then
      { s with
        current_clip_writer := none
        clip_frames_remaining := rem
        closedSessions := s.closedSessions ++ [w']
        closedCount := s.closedCount + 1 }
    else
      { s with current_clip_writer := some w', clip_frames_remaining := rem }

/-- The per-face body of the analysis loop (`src/detection.py:163`-`201`):
decide the match, and on a confirmed match run the mask heuristic, append
the trajectory center, append the detection record to both history lists,
bump `match_count`, and start a clip when no writer is active. -/
def process_face (p : RunParams) (current_frame : Nat) (s : EngineState)
    (f : FaceObservation) : EngineState :=
  let r := matchResult p.detection_threshold f.refResults
  if r.1 then
    let has_mask := detect_mask p.mask_std_threshold f.maskStd
    let center : Int × Int := ((f.left + f.right) / 2, (f.top + f.bottom) / 2)
    let d : DetectionRecord := { frame := current_frame, confidence := r.2, mask := has_mask }
    let s' :=
      { s with
        detection_path := s.detection_path ++ [center]
        matchesList := s.matchesList ++ [d]
        report_data := s.report_data ++ [d]
        matchCount := s.matchCount + 1 }
    if s'.current_clip_writer = none then start_video_clip p current_frame s' else s'
  else s

/-- One loop iteration of `process_video` for the frame with index
`current_frame` (`src/detection.py:141`-`209`): clip write first, then the
sampling gate `current_frame % self.frame_skip != 0` short-circuits with
`continue` (skipping the analysis AND the callbacks), otherwise the frame's
analysis runs — an exception there propagates, since the source wraps none
of it — and the progress and frame callbacks fire after it. -/
def step_frame (p : RunParams) (current_frame : Nat) (fd : FrameData)
    (s : EngineState) : Except Unit EngineState :=
  let s1 := clip_write_phase current_frame s
  if current_frame % p.frame_skip ≠ 0 then .ok s1
  else
    match fd.faces with
    | none => .error ()
    | some faces =>
      let s2 := faces.foldl (process_face p current_frame) s1
      .ok { s2 with
            progressCalls := s2.progressCalls ++ [(current_frame : ℚ) / (p.total_frames : ℚ)]
            frameCalls := s2.frameCalls ++ [current_frame] }

/-- The frame loop (`src/detection.py:136`-`209`), indices counting up from
`i`, one `FrameData` per successfully read frame. -/
def run_loop (p : RunParams) : Nat → List FrameData → EngineState → Except Unit EngineState
  | _, [], s => .ok s
  | i, fd :: rest, s =>
    match step_frame p i fd s with
    | .error e => .error e
    | .ok s' => run_loop p (i + 1) rest s'

/-- `process_video` on a video that opens (`src/detection.py:123`-`214`):
`match_count` re-initialised to `0`, the loop run over the first
`total_frames` readable frames starting at index `0`, and on normal loop
exit the pair (returned `match_count`, final engine state).  An uncaught
per-frame exception surfaces as `.error`. -/
def process_video (p : RunParams) (frames : List FrameData) (s : EngineState) :
    Except Unit (Nat × EngineState) :=
  match run_loop p 0 (frames.take p.total_frames) { s with matchCount := 0 } with
  | .error e => .error e
  | .ok s' => .ok (s'.matchCount, s')

/-- What loading one reference image path produces
(`src/detection.py:55`-`67`): the file is missing, loading raises, no face
is found, or a face encoding (identified here by a tag). -/
inductive RefImageOutcome
  | missing
  | loadFailure
  | noFace
  | face (encoding : Nat)
deriving DecidableEq, Repr

/-- `load_reference_images` (`src/detection.py:40`-`72`): truncate to the
first `max_reference_images` paths when that setting is present and
exceeded, fold over the paths keeping the encodings of the ones that load,
return success iff at least one encoding was kept. -/
def load_reference_images (max_reference_images : Option Nat)
    (image_paths : List RefImageOutcome) : Bool × List Nat :=
  let paths := match max_reference_images with
    | some m => if m < image_paths.length then image_paths.take m else image_paths
    | none => image_paths
  let encs := paths.foldl
    (fun acc p => match p with
      | .face e => acc ++ [e]
      | _ => acc) []
  (!encs.isEmpty, encs)

/-- The two threading events of the engine
(`src/detection.py:35`-`36`): `pause_event` and `stop_event`. -/
structure ControlState where
  paused : Bool
  stopped : Bool
deriving DecidableEq, Repr

/-- `pause` (`src/detection.py:216`-`219`): set `pause_event`. -/
def ControlState.pause (s : ControlState) : ControlState :=
  { s with paused := true }

/-- `resume` (`src/detection.py:221`-`224`): clear `pause_event` only. -/
def ControlState.resume (s : ControlState) : ControlState :=
  { s with paused := false }

/-- `stop` (`src/detection.py:226`-`229`): set `stop_event`; nothing in the
engine ever clears it. -/
def ControlState.stop (s : ControlState) : ControlState :=
  { s with stopped := true }

/-- The three control operations another thread may invoke on the engine. -/
inductive ControlOp
  | pauseOp
  | resumeOp
  | stopOp
deriving DecidableEq, Repr

/-- Apply one control operation. -/
def applyOp : ControlOp → ControlState → ControlState
  | .pauseOp, s => s.pause
  | .resumeOp, s => s.resume
  | .stopOp, s => s.stop

/-- Apply a sequence of control operations in order. -/
def applyOps (ops : List ControlOp) (s : ControlState) : ControlState :=
  ops.foldl (fun s op => applyOp op s) s

/-- What one pass over the top of the loop does
(`src/detection.py:136`-`139`): exit when `stop_event` is set or the frame
index has reached `total_frames`; otherwise, when `pause_event` is set,
sleep and re-poll without consuming a frame; otherwise consume a frame. -/
inductive LoopBoundaryAction
  | exitLoop
  | pollPause
  | consumeFrame
deriving DecidableEq, Repr

/-- The decision taken at each loop boundary (`src/detection.py:136`-`139`). -/
def loopBoundary (c : ControlState) (current_frame total_frames : Nat) : LoopBoundaryAction :=
  if c.stopped || decide (total_frames ≤ current_frame) then .exitLoop
  else if c.paused then .pollPause
  else .consumeFrame

/-! ## Helper lemmas -/

/-- `clip_write_phase` touches only the clip fields: the histories, the
counters of `process_video` and the callback logs are untouched. -/
theorem clip_write_phase_fields (current_frame : Nat) (s : EngineState) :
    (clip_write_phase current_frame s).report_data = s.report_data ∧
    (clip_write_phase current_frame s).matchCount = s.matchCount ∧
    (clip_write_phase current_frame s).progressCalls = s.progressCalls ∧
    (clip_write_phase current_frame s).frameCalls = s.frameCalls ∧
    (clip_write_phase current_frame s).openedCount = s.openedCount := by
  rcases hw : s.current_clip_writer with _ | w <;>
    simp only [clip_write_phase, hw] <;> [skip; split] <;> simp

/-- `process_face` leaves the callback logs and the close bookkeeping alone,
and bumps the report history and the match counter together: by one on a
confirmed match, by nothing otherwise. -/
theorem process_face_fields (p : RunParams) (current_frame : Nat) (s : EngineState)
    (f : FaceObservation) :
    (process_face p current_frame s f).report_data.length =
      s.report_data.length +
        (if (matchResult p.detection_threshold f.refResults).1 then 1 else 0) ∧
    (process_face p current_frame s f).matchCount =
      s.matchCount + (if (matchResult p.detection_threshold f.refResults).1 then 1 else 0) ∧
    (process_face p current_frame s f).progressCalls = s.progressCalls ∧
    (process_face p current_frame s f).frameCalls = s.frameCalls ∧
    (process_face p current_frame s f).closedCount = s.closedCount ∧
    (process_face p current_frame s f).closedSessions = s.closedSessions := by
  by_cases h : (matchResult p.detection_threshold f.refResults).1 <;>
    simp only [process_face, h, if_true, if_false, Bool.false_eq_true] <;> [split; skip] <;>
    simp [start_video_clip]

/-- Predicate preservation through the per-frame fold over detected faces. -/
theorem foldl_process_face_pred (p : RunParams) (current_frame : Nat)
    (P : EngineState → Prop)
    (hP : ∀ s f, P s → P (process_face p current_frame s f)) :
    ∀ (faces : List FaceObservation) (s : EngineState),
      P s → P (faces.foldl (process_face p current_frame) s) := by
  intro faces
  induction faces with
  | nil => intro s h; simpa using h
  | cons f rest ih =>
    intro s h
    rw [List.foldl_cons]
    exact ih _ (hP s f h)

/-! ## C9 : the stopped flag is terminal and the loop observes it -/

/-- No control operation ever clears `stop_event`. -/
theorem applyOps_stopped_of_stopped (ops : List ControlOp) :
    ∀ s : ControlState, s.stopped = true → (applyOps ops s).stopped = true := by
  induction ops with
  | nil => intro s h; simpa [applyOps] using h
  | cons op rest ih =>
    intro s h
    have hop : (applyOp op s).stopped = true := by
      cases op <;>
        simp [applyOp, ControlState.pause, ControlState.resume, ControlState.stop, h]
    simpa [applyOps] using ih (applyOp op s) hop

/-- C9: once `stop()` sets the stopped flag, no later `pause`/`resume`/`stop`
call returns it to false (`resume` clears only the pause flag), and the loop
boundary check of `process_video` exits for every such state — in particular
for a state that is also paused, so a loop sitting in the paused re-poll
cycle still terminates after `stop()`. -/
theorem C9_stop_terminal_and_loop_exits :
    (∀ s : ControlState, (ControlState.resume s).stopped = s.stopped) ∧
    (∀ (ops : List ControlOp) (s : ControlState),
      (applyOps ops (ControlState.stop s)).stopped = true) ∧
    (∀ (ops : List ControlOp) (s : ControlState) (current_frame total_frames : Nat),
      loopBoundary (applyOps ops (ControlState.stop s)) current_frame total_frames =
        .exitLoop) ∧
    (∀ (c : ControlState) (current_frame total_frames : Nat),
      c.stopped = true → loopBoundary c current_frame total_frames = .exitLoop) := by
  refine ⟨fun s => rfl, ?_, ?_, ?_⟩
  · intro ops s
    exact applyOps_stopped_of_stopped ops _ rfl
  · intro ops s i n
    have h := applyOps_stopped_of_stopped ops (ControlState.stop s) rfl
    simp [loopBoundary, h]
  · intro c i n h
    simp [loopBoundary, h]

/-! ## C8 : loadReferenceImages contract -/

/-- The encoding a reference image path contributes, if any. -/
def refEncodingOf : RefImageOutcome → Option Nat
  | .face e => some e
  | _ => none

/-- The encoding-collecting fold of `load_reference_images` accumulates
exactly the encodings of the paths that load, in order. -/
theorem refFold_eq_filterMap (l : List RefImageOutcome) :
    ∀ acc : List Nat,
      l.foldl (fun acc p => match p with | .face e => acc ++ [e] | _ => acc) acc =
        acc ++ l.filterMap refEncodingOf := by
  induction l with
  | nil => intro acc; simp
  | cons p rest ih =>
    intro acc
    cases p <;> simp [refEncodingOf, ih]

/-- C8: `load_reference_images` attempts only the first
`max_reference_images` paths, skips (without failing) paths that are
missing, unreadable or contain no face, returns true iff at least one
encoding succeeded, returns an empty reference set when it returns false —
and on 6 paths with limit 4 of which 2 of the first 4 are invalid it returns
true with exactly the 2 surviving encodings. -/
theorem C8_load_reference_images_contract (m : Nat) (image_paths : List RefImageOutcome) :
    ((load_reference_images (some m) image_paths).1 = true ↔
      (load_reference_images (some m) image_paths).2 ≠ []) ∧
    ((load_reference_images (some m) image_paths).1 = false →
      (load_reference_images (some m) image_paths).2 = []) ∧
    (load_reference_images (some m) image_paths).2 =
      (image_paths.take m).filterMap refEncodingOf ∧
    (load_reference_images (some m) image_paths).2.length ≤ m ∧
    load_reference_images (some 4)
        [.face 10, .missing, .noFace, .face 20, .face 30, .face 40] =
      (true, [10, 20]) := by
  have hpaths : (if m < image_paths.length then image_paths.take m else image_paths) =
      image_paths.take m := by
    split
    · rfl
    · rename_i hnot
      rw [List.take_of_length_le (le_of_not_lt hnot)]
  have heq : load_reference_images (some m) image_paths =
      (!((image_paths.take m).filterMap refEncodingOf).isEmpty,
        (image_paths.take m).filterMap refEncodingOf) := by
    simp only [load_reference_images, hpaths, refFold_eq_filterMap, List.nil_append]
  refine ⟨?_, ?_, ?_, ?_, by rfl⟩
  · rw [heq]
    cases (image_paths.take m).filterMap refEncodingOf <;> simp
  · rw [heq]
    cases (image_paths.take m).filterMap refEncodingOf <;> simp
  · rw [heq]
  · rw [heq]
    calc ((image_paths.take m).filterMap refEncodingOf).length
        ≤ (image_paths.take m).length := List.length_filterMap_le _ _
      _ ≤ m := by simp [List.length_take_le]

/-! ## C4 : the frames-remaining initialisation truncates, it does not round -/

/-- C4 (amended): starting a clip session sets `clip_frames_remaining` to the
TRUNCATION toward zero of `fps * clip_duration` — Python `int()` — which for
the non-negative products of a real stream equals the floor, not the
rounding, of that product. -/
theorem C4_frames_remaining_is_truncation (p : RunParams) (current_frame : Nat)
    (s : EngineState) :
    (start_video_clip p current_frame s).clip_frames_remaining =
      pyInt (p.fps * p.clip_duration) ∧
    (0 ≤ p.fps * p.clip_duration →
      (start_video_clip p current_frame s).clip_frames_remaining =
        ⌊p.fps * p.clip_duration⌋) := by
  refine ⟨rfl, fun h => ?_⟩
  simp [start_video_clip, pyInt, h]

/-- A 2.4 fps stream (such a fractional rate is a legal capture property)
with a 2 second clip duration, for the counterexample to rounding. -/
def cex4P : RunParams :=
  { frame_skip := 5, detection_threshold := 1/2, mask_std_threshold := 20,
    clip_duration := 2, fps := 12/5, total_frames := 10 }

/-- C4 counterexample: with `fps = 12/5` and `clipDurationSeconds = 2` the
product is `4.8`; the code sets `framesRemaining = int(4.8) = 4`, while the
claimed `round(fps * clipDurationSeconds)` is `5`. -/
theorem C4_counterexample :
    (start_video_clip cex4P 0 initEngineState).clip_frames_remaining = 4 ∧
    round (cex4P.fps * cex4P.clip_duration) = 5 ∧
    (4 : Int) ≠ 5 := by
  refine ⟨by with_unfolding_all decide, ?_, by decide⟩
  show round ((12/5 : ℚ) * 2) = 5
  norm_num [round_eq]

/-! ## C5 : the match decision and the reported confidence -/

/-- Characterisation of the reference fold of `process_video` from an
arbitrary accumulator. -/
theorem matchResult_go (threshold : ℚ) (refs : List (Bool × ℚ)) :
    ∀ (b : Bool) (c : ℚ),
      refs.foldl
          (fun acc r =>
            if r.1 && decide (r.2 ≤ threshold) then (true, max acc.2 (1 - r.2)) else acc)
          (b, c) =
        (b || !(qualifying threshold refs).isEmpty,
          (qualifying threshold refs).foldl (fun m r => max m (1 - r.2)) c) := by
  induction refs with
  | nil => intro b c; simp [qualifying]
  | cons r rest ih =>
    intro b c
    rw [List.foldl_cons]
    cases h : r.1 && decide (r.2 ≤ threshold) with
    | false =>
      rw [if_neg (by simp [h])]
      have hq : qualifying threshold (r :: rest) = qualifying threshold rest := by
        simp [qualifying, List.filter_cons, h]
      rw [ih b c, hq]
    | true =>
      rw [if_pos rfl]
      have hq : qualifying threshold (r :: rest) = r :: qualifying threshold rest := by
        simp [qualifying, List.filter_cons, h]
      rw [ih true (max (b, c).2 (1 - r.2)), hq]
      simp

/-- The match flag is the non-emptiness of the qualifying set and the
confidence is the max-fold of `1 - distance` over it, from `0`. -/
theorem matchResult_eq (threshold : ℚ) (refs : List (Bool × ℚ)) :
    matchResult threshold refs =
      (!(qualifying threshold refs).isEmpty,
        (qualifying threshold refs).foldl (fun m r => max m (1 - r.2)) 0) := by
  simpa [matchResult] using matchResult_go threshold refs false 0

/-- A max-fold dominates its initial value. -/
theorem le_foldl_max (l : List ℚ) : ∀ c : ℚ, c ≤ l.foldl max c := by
  induction l with
  | nil => intro c; simp
  | cons x rest ih =>
    intro c
    rw [List.foldl_cons]
    exact le_trans (le_max_left c x) (ih (max c x))

/-- A max-fold dominates every member of the list. -/
theorem mem_le_foldl_max (l : List ℚ) :
    ∀ (c x : ℚ), x ∈ l → x ≤ l.foldl max c := by
  induction l with
  | nil => intro c x h; simp at h
  | cons y rest ih =>
    intro c x h
    rw [List.foldl_cons]
    rcases List.mem_cons.mp h with rfl | h
    · exact le_trans (le_max_right c x) (le_foldl_max rest (max c x))
    · exact ih (max c y) x h

/-- A max-fold is its initial value or a member of the list. -/
theorem foldl_max_mem (l : List ℚ) :
    ∀ c : ℚ, l.foldl max c = c ∨ l.foldl max c ∈ l := by
  induction l with
  | nil => intro c; left; rfl
  | cons y rest ih =>
    intro c
    rw [List.foldl_cons]
    rcases ih (max c y) with h | h
    · rcases le_total c y with hcy | hyc
      · right; rw [h, max_eq_right hcy]; exact List.mem_cons_self y rest
      · left; rw [h, max_eq_left hyc]
    · right; exact List.mem_cons_of_mem y h

/-- Membership in the qualifying set means the service's own boolean was true
AND the distance is within the configured threshold. -/
theorem mem_qualifying (threshold : ℚ) (refs : List (Bool × ℚ)) (r : Bool × ℚ)
    (h : r ∈ qualifying threshold refs) : r.1 = true ∧ r.2 ≤ threshold := by
  have hm := List.mem_filter.mp h
  simpa [Bool.and_eq_true, decide_eq_true_eq] using hm.2

/-- C5: a face is a confirmed match iff at least one reference yields
`isMatch == true` and `distance ≤ detectionThreshold`; the confidence of a
confirmed match is the maximum of `1 - distance` over the qualifying
references (attained and an upper bound); and a face whose match flag is
false — in particular one whose only references have `isMatch = true` but
`distance > detectionThreshold` — leaves the engine state untouched, so it
produces no record. -/
theorem C5_match_decision_and_confidence (threshold : ℚ) (hthr : threshold ≤ 1)
    (refs : List (Bool × ℚ)) :
    ((matchResult threshold refs).1 = true ↔ qualifying threshold refs ≠ []) ∧
    ((matchResult threshold refs).1 = true →
      (∃ r ∈ qualifying threshold refs, (matchResult threshold refs).2 = 1 - r.2) ∧
      (∀ r ∈ qualifying threshold refs, 1 - r.2 ≤ (matchResult threshold refs).2)) ∧
    (∀ (p : RunParams) (current_frame : Nat) (s : EngineState) (f : FaceObservation),
      p.detection_threshold = threshold → f.refResults = refs →
      (matchResult threshold refs).1 = false → process_face p current_frame s f = s) := by
  have hub : ∀ r ∈ qualifying threshold refs,
      1 - r.2 ≤ (matchResult threshold refs).2 := by
    intro r hr
    rw [matchResult_eq]
    have : (qualifying threshold refs).foldl (fun m r => max m (1 - r.2)) 0 =
        ((qualifying threshold refs).map (fun r => 1 - r.2)).foldl max 0 := by
      rw [List.foldl_map]
    rw [this]
    exact mem_le_foldl_max _ 0 (1 - r.2) (List.mem_map_of_mem _ hr)
  refine ⟨?_, fun htrue => ⟨?_, hub⟩, ?_⟩
  · rw [matchResult_eq]
    cases qualifying threshold refs <;> simp
  · have hne : qualifying threshold refs ≠ [] := by
      rw [matchResult_eq] at htrue
      intro hnil
      rw [hnil] at htrue
      simp at htrue
    have hconf : (matchResult threshold refs).2 =
        ((qualifying threshold refs).map (fun r => 1 - r.2)).foldl max 0 := by
      rw [matchResult_eq, List.foldl_map]
    rcases foldl_max_mem ((qualifying threshold refs).map (fun r => 1 - r.2)) 0 with h0 | hmem
    · obtain ⟨r0, hr0⟩ : ∃ r0, r0 ∈ qualifying threshold refs := by
        rcases hq : qualifying threshold refs with _ | ⟨a, l⟩
        · exact absurd hq hne
        · exact ⟨a, List.mem_cons_self a l⟩
      have hle : 1 - r0.2 ≤ (matchResult threshold refs).2 := hub r0 hr0
      have hge : 0 ≤ 1 - r0.2 := by
        have := (mem_qualifying threshold refs r0 hr0).2
        linarith
      refine ⟨r0, hr0, ?_⟩
      rw [hconf, h0] at hle ⊢
      linarith
    · rcases List.mem_map.mp hmem with ⟨r, hr, hrv⟩
      exact ⟨r, hr, by rw [hconf, ← hrv]⟩
  · intro p i s f hp hf hfalse
    simp [process_face, hp, hf, hfalse]

/-- The per-reference service answers used to instantiate C5: one reference
within threshold and one with its native boolean true but the distance
above the threshold. -/
def exRefs : List (Bool × ℚ) := [(true, 2/5), (true, 3/5)]

/-- C5 witness: the matcher contract instantiated at `threshold = 1/2` with
two references at distances `0.4` (qualifies) and `0.6` (does not). -/
theorem C5_witness :
    ((matchResult (1/2) exRefs).1 = true ↔ qualifying (1/2) exRefs ≠ []) ∧
    ((matchResult (1/2) exRefs).1 = true →
      (∃ r ∈ qualifying (1/2) exRefs, (matchResult (1/2) exRefs).2 = 1 - r.2) ∧
      (∀ r ∈ qualifying (1/2) exRefs, 1 - r.2 ≤ (matchResult (1/2) exRefs).2)) ∧
    (∀ (p : RunParams) (current_frame : Nat) (s : EngineState) (f : FaceObservation),
      p.detection_threshold = 1/2 → f.refResults = exRefs →
      (matchResult (1/2) exRefs).1 = false → process_face p current_frame s f = s) :=
  C5_match_decision_and_confidence (1/2) (by norm_num) exRefs

/-! ## C1 : the returned match count versus the detection history -/

/-- One face keeps `report_data.length - match_count` constant: both grow by
one on a confirmed match, by nothing otherwise. -/
theorem process_face_report_balance (p : RunParams) (current_frame : Nat)
    (s : EngineState) (f : FaceObservation) :
    (process_face p current_frame s f).report_data.length + s.matchCount =
      s.report_data.length + (process_face p current_frame s f).matchCount := by
  obtain ⟨h1, h2, -⟩ := process_face_fields p current_frame s f
  omega

/-- The per-frame face fold keeps `report_data.length - match_count` constant. -/
theorem foldl_report_balance (p : RunParams) (current_frame : Nat) :
    ∀ (faces : List FaceObservation) (s : EngineState),
      (faces.foldl (process_face p current_frame) s).report_data.length + s.matchCount =
        s.report_data.length + (faces.foldl (process_face p current_frame) s).matchCount := by
  intro faces
  induction faces with
  | nil => intro s; simp
  | cons f rest ih =>
    intro s
    rw [List.foldl_cons]
    have h1 := process_face_report_balance p current_frame s f
    have h2 := ih (process_face p current_frame s f)
    omega

/-- One loop iteration keeps `report_data.length - match_count` constant. -/
theorem step_frame_report_balance (p : RunParams) (current_frame : Nat)
    (fd : FrameData) (s s' : EngineState)
    (h : step_frame p current_frame fd s = .ok s') :
    s'.report_data.length + s.matchCount = s.report_data.length + s'.matchCount := by
  obtain ⟨hc1, hc2, -⟩ := clip_write_phase_fields current_frame s
  have hlen : (clip_write_phase current_frame s).report_data.length =
      s.report_data.length := by rw [hc1]
  unfold step_frame at h
  split at h
  · cases h
    omega
  · cases hf : fd.faces with
    | none => rw [hf] at h; cases h
    | some faces =>
      rw [hf] at h
      cases h
      have hb := foldl_report_balance p current_frame faces (clip_write_phase current_frame s)
      show (faces.foldl (process_face p current_frame)
              (clip_write_phase current_frame s)).report_data.length + s.matchCount =
          s.report_data.length +
            (faces.foldl (process_face p current_frame)
              (clip_write_phase current_frame s)).matchCount
      omega

/-- The whole loop keeps `report_data.length - match_count` constant. -/
theorem run_loop_report_balance (p : RunParams) :
    ∀ (frames : List FrameData) (current_frame : Nat) (s s' : EngineState),
      run_loop p current_frame frames s = .ok s' →
      s'.report_data.length + s.matchCount = s.report_data.length + s'.matchCount := by
  intro frames
  induction frames with
  | nil =>
    intro i s s' h
    simp only [run_loop] at h
    cases h
    rfl
  | cons fd rest ih =>
    intro i s s' h
    simp only [run_loop] at h
    cases hs : step_frame p i fd s with
    | error e => rw [hs] at h; cases h
    | ok s1 =>
      rw [hs] at h
      have h1 := step_frame_report_balance p i fd s s1 hs
      have h2 := ih (i + 1) s1 s' h
      omega

/-- C1 (amended): a `process_video` run that opens its video and terminates
normally returns the number of `DetectionRecords` it APPENDED during the
run: the final history length equals the history length at call time plus
the returned count.  The returned count therefore equals the final history
length exactly when the history was empty at call time (e.g. the first run
of a fresh engine) — `process_video` resets neither `report_data` nor
`matches` between runs, only its local `match_count`. -/
theorem C1_return_counts_records_appended (p : RunParams) (frames : List FrameData)
    (s0 : EngineState) (n : Nat) (s : EngineState)
    (h : process_video p frames s0 = .ok (n, s)) :
    s.report_data.length = s0.report_data.length + n ∧
    (s0.report_data = [] → n = s.report_data.length) := by
  unfold process_video at h
  cases hr : run_loop p 0 (frames.take p.total_frames) { s0 with matchCount := 0 } with
  | error e => rw [hr] at h; cases h
  | ok sfin =>
    rw [hr] at h
    have hb := run_loop_report_balance p (frames.take p.total_frames) 0 _ _ hr
    simp only at hb
    cases h
    constructor
    · omega
    · intro h0
      rw [h0] at hb
      simp at hb
      omega

/-- The run parameters of the two-sequential-runs counterexample: every frame
analysed, threshold `0.5`, a one-frame video. -/
def cexP : RunParams :=
  { frame_skip := 1, detection_threshold := 1/2, mask_std_threshold := 20,
    clip_duration := 5, fps := 30, total_frames := 1 }

/-- A frame with one face that the only reference matches at distance `0.4`. -/
def cexFrame : FrameData :=
  { faces := some [{ top := 0, right := 2, bottom := 2, left := 0,
                     refResults := [(true, 2/5)], maskStd := 0 }] }

/-- The engine state after the first `process_video` run of `cexP` over
`[cexFrame]` from a fresh engine. -/
def cexState1 : EngineState :=
  match process_video cexP [cexFrame] initEngineState with
  | .ok r => r.2
  | .error _ => initEngineState

/-- The count the first run returned. -/
def cexCount1 : Nat :=
  match process_video cexP [cexFrame] initEngineState with
  | .ok r => r.1
  | .error _ => 0

/-- The value a run of `process_video` returns to its caller, when it
terminates normally. -/
def runMatchCount (r : Except Unit (Nat × EngineState)) : Option Nat :=
  match r with
  | .ok r => some r.1
  | .error _ => none

/-- The length of the detection history (`report_data`, the list the report
enumerates) at run end, when the run terminates normally. -/
def runHistoryLength (r : Except Unit (Nat × EngineState)) : Option Nat :=
  match r with
  | .ok r => some r.2.report_data.length
  | .error _ => none

/-- C1 counterexample: a second sequential `process_video` call on the same
engine instance returns `1` (it found one match) while the detection history
it reported has length `2` — the first run's record is still there, so the
return value does not equal the history length at run end. -/
theorem C1_counterexample :
    runMatchCount (process_video cexP [cexFrame] cexState1) = some 1 ∧
    runHistoryLength (process_video cexP [cexFrame] cexState1) = some 2 ∧
    (1 : Nat) ≠ 2 := by
  refine ⟨?_, ?_, by decide⟩ <;> with_unfolding_all rfl

/-- C1 witness: the amended theorem applied to the concrete first run. -/
theorem C1_witness :
    cexState1.report_data.length = initEngineState.report_data.length + cexCount1 ∧
    (initEngineState.report_data = [] → cexCount1 = cexState1.report_data.length) :=
  C1_return_counts_records_appended cexP [cexFrame] initEngineState cexCount1 cexState1
    (by with_unfolding_all rfl)

/-! ## C2 : an exception inside one frame's analysis aborts the whole run -/

/-- C2: `process_video` wraps the per-frame detection/encoding/matching work
in no try/except, so when the first frame's analysis raises, the exception
propagates out of the loop: the run neither reaches `generate_report` nor
returns a count.  (The claim — and §7 of the spec — requires the opposite:
catch, log, treat as no match, continue.) -/
theorem C2_uncaught_analysis_error_aborts (p : RunParams) (rest : List FrameData)
    (s0 : EngineState) (h : 1 ≤ p.total_frames) :
    process_video p ({ faces := none } :: rest) s0 = .error () := by
  unfold process_video
  obtain ⟨k, hk⟩ : ∃ k, p.total_frames = k + 1 := ⟨p.total_frames - 1, by omega⟩
  rw [hk, List.take_succ_cons]
  simp [run_loop, step_frame]

/-- The parameters of the concrete aborting run. -/
def cex2P : RunParams :=
  { frame_skip := 5, detection_threshold := 1/2, mask_std_threshold := 20,
    clip_duration := 5, fps := 30, total_frames := 1 }

/-- C2 witness: the concrete one-frame video whose frame-0 analysis raises. -/
theorem C2_witness :
    process_video cex2P [{ faces := none }] initEngineState = .error () :=
  C2_uncaught_analysis_error_aborts cex2P [] initEngineState (by decide)

/-! ## C3 : the callbacks fire only on sampled iterations -/

/-- The face fold never touches the callback logs. -/
theorem foldl_process_face_callbacks (p : RunParams) (current_frame : Nat)
    (faces : List FaceObservation) (s : EngineState) :
    (faces.foldl (process_face p current_frame) s).progressCalls = s.progressCalls ∧
    (faces.foldl (process_face p current_frame) s).frameCalls = s.frameCalls := by
  refine foldl_process_face_pred p current_frame
    (fun t => t.progressCalls = s.progressCalls ∧ t.frameCalls = s.frameCalls)
    ?_ faces s ⟨rfl, rfl⟩
  intro t f ht
  obtain ⟨-, -, hp, hf, -⟩ := process_face_fields p current_frame t f
  exact ⟨hp.trans ht.1, hf.trans ht.2⟩

/-- C3 (amended): the progress and frame-preview callbacks are NOT invoked on
every frame-consuming iteration: an iteration the sampling gate rejects
(`frameIndex % frameSkip ≠ 0`) runs only the clip-write phase and invokes
neither callback, while an iteration the gate selects invokes the progress
callback once with `frameIndex/totalFrames` and the frame callback once with
the current frame.  Every frame, sampled or not, is still offered to the
clip recorder (the skipped iteration is exactly the clip-write phase). -/
theorem C3_callbacks_only_on_sampled_iterations (p : RunParams) (current_frame : Nat)
    (fd : FrameData) (s : EngineState) :
    (current_frame % p.frame_skip ≠ 0 →
      step_frame p current_frame fd s = .ok (clip_write_phase current_frame s) ∧
      (clip_write_phase current_frame s).progressCalls = s.progressCalls ∧
      (clip_write_phase current_frame s).frameCalls = s.frameCalls) ∧
    (∀ s' : EngineState, current_frame % p.frame_skip = 0 →
      step_frame p current_frame fd s = .ok s' →
      s'.progressCalls =
        s.progressCalls ++ [(current_frame : ℚ) / (p.total_frames : ℚ)] ∧
      s'.frameCalls = s.frameCalls ++ [current_frame]) := by
  obtain ⟨-, -, hcp, hcf, -⟩ := clip_write_phase_fields current_frame s
  constructor
  · intro hskip
    exact ⟨by simp [step_frame, hskip], hcp, hcf⟩
  · intro s' hsel hstep
    simp only [step_frame, hsel, ne_eq, not_true_eq_false, if_false] at hstep
    cases hf : fd.faces with
    | none => rw [hf] at hstep; cases hstep
    | some faces =>
      rw [hf] at hstep
      cases hstep
      obtain ⟨h1, h2⟩ := foldl_process_face_callbacks p current_frame faces
        (clip_write_phase current_frame s)
      constructor
      · show (faces.foldl (process_face p current_frame)
              (clip_write_phase current_frame s)).progressCalls ++
            [(current_frame : ℚ) / (p.total_frames : ℚ)] =
          s.progressCalls ++ [(current_frame : ℚ) / (p.total_frames : ℚ)]
        rw [h1, hcp]
      · show (faces.foldl (process_face p current_frame)
              (clip_write_phase current_frame s)).frameCalls ++ [current_frame] =
          s.frameCalls ++ [current_frame]
        rw [h2, hcf]

/-- The sampling parameters of the claimed scenario: `frameSkip = 5` over a
15-frame video. -/
def cex3P : RunParams :=
  { frame_skip := 5, detection_threshold := 1/2, mask_std_threshold := 20,
    clip_duration := 5, fps := 30, total_frames := 15 }

/-- How many times the progress callback fired during a normally terminated
run. -/
def runProgressCount (r : Except Unit (Nat × EngineState)) : Option Nat :=
  match r with
  | .ok r => some r.2.progressCalls.length
  | .error _ => none

/-- The frame indices passed to the frame-preview callback during a normally
terminated run. -/
def runFrameCalls (r : Except Unit (Nat × EngineState)) : Option (List Nat) :=
  match r with
  | .ok r => some r.2.frameCalls
  | .error _ => none

/-- C3 counterexample: with `frameSkip = 5` over frames `0..14` (15 frames,
each analysing to no faces), the progress callback fires only 3 times — on
the sampled frames `0, 5, 10` — not on all 15 frame-consuming iterations as
claimed. -/
theorem C3_counterexample :
    runProgressCount
        (process_video cex3P (List.replicate 15 { faces := some [] }) initEngineState) =
      some 3 ∧
    runFrameCalls
        (process_video cex3P (List.replicate 15 { faces := some [] }) initEngineState) =
      some [0, 5, 10] ∧
    (3 : Nat) ≠ 15 := by
  refine ⟨?_, ?_, by decide⟩ <;> with_unfolding_all rfl

/-! ## C6 : at most one clip session is ever active -/

/-- At most one clip session is active: the opening count exceeds the closing
count by exactly the one active writer, or by nothing when idle. -/
def atMostOneActiveClip (s : EngineState) : Prop :=
  s.openedCount = s.closedCount + (if s.current_clip_writer.isSome then 1 else 0)

/-- The clip-write phase preserves the at-most-one-session invariant. -/
theorem clip_write_phase_atMostOne (current_frame : Nat) (s : EngineState)
    (h : atMostOneActiveClip s) : atMostOneActiveClip (clip_write_phase current_frame s) := by
  unfold atMostOneActiveClip at *
  rcases hw : s.current_clip_writer with _ | w
  · simpa [clip_write_phase, hw] using h
  · rw [hw] at h
    simp only [clip_write_phase, hw]
    split <;> simp at h ⊢ <;> omega

/-- Face processing preserves the at-most-one-session invariant: a match
while recording opens nothing, a match while idle opens exactly one. -/
theorem process_face_atMostOne (p : RunParams) (current_frame : Nat) (s : EngineState)
    (f : FaceObservation) (h : atMostOneActiveClip s) :
    atMostOneActiveClip (process_face p current_frame s f) := by
  unfold atMostOneActiveClip at *
  by_cases hm : (matchResult p.detection_threshold f.refResults).1
  · simp only [process_face, hm, if_true]
    split
    · rename_i hnone
      simp only [start_video_clip]
      simp at hnone ⊢
      rw [hnone] at h
      simp at h
      omega
    · simpa using h
  · simpa [process_face, hm] using h

/-- One loop iteration preserves the at-most-one-session invariant. -/
theorem step_frame_atMostOne (p : RunParams) (current_frame : Nat) (fd : FrameData)
    (s s' : EngineState) (hstep : step_frame p current_frame fd s = .ok s')
    (h : atMostOneActiveClip s) : atMostOneActiveClip s' := by
  have hclip := clip_write_phase_atMostOne current_frame s h
  unfold step_frame at hstep
  split at hstep
  · cases hstep
    exact hclip
  · cases hf : fd.faces with
    | none => rw [hf] at hstep; cases hstep
    | some faces =>
      rw [hf] at hstep
      cases hstep
      have hfold := foldl_process_face_pred p current_frame atMostOneActiveClip
        (process_face_atMostOne p current_frame) faces
        (clip_write_phase current_frame s) hclip
      unfold atMostOneActiveClip at hfold ⊢
      exact hfold

/-- C6: at most one `ClipRecordingSession` is ever active during a run — the
invariant holds of the fresh engine and is preserved by the clip-write
phase, by every face, and by every whole loop iteration; and a confirmed
match arriving while a writer is active leaves that very writer in place and
opens nothing, while only a match in the idle state opens a session. -/
theorem C6_at_most_one_clip_session :
    atMostOneActiveClip initEngineState ∧
    (∀ (current_frame : Nat) (s : EngineState), atMostOneActiveClip s →
      atMostOneActiveClip (clip_write_phase current_frame s)) ∧
    (∀ (p : RunParams) (current_frame : Nat) (s : EngineState) (f : FaceObservation),
      atMostOneActiveClip s → atMostOneActiveClip (process_face p current_frame s f)) ∧
    (∀ (p : RunParams) (current_frame : Nat) (fd : FrameData) (s s' : EngineState),
      step_frame p current_frame fd s = .ok s' →
      atMostOneActiveClip s → atMostOneActiveClip s') ∧
    (∀ (p : RunParams) (current_frame : Nat) (s : EngineState) (f : FaceObservation)
        (w : ClipSession),
      s.current_clip_writer = some w →
      (process_face p current_frame s f).current_clip_writer = some w ∧
      (process_face p current_frame s f).openedCount = s.openedCount) := by
  refine ⟨by simp [atMostOneActiveClip, initEngineState], clip_write_phase_atMostOne,
    process_face_atMostOne, step_frame_atMostOne, ?_⟩
  intro p current_frame s f w hw
  by_cases hm : (matchResult p.detection_threshold f.refResults).1
  · simp [process_face, hm, hw]
  · simp [process_face, hm, hw]

/-! ## C7 : the frames-remaining counter and session closure -/

/-- The counter invariant an active run maintains when sessions start with a
positive counter: an active writer has at least one frame left, and the
counter field itself is never negative. -/
def clipCounterInv (s : EngineState) : Prop :=
  (s.current_clip_writer.isSome → 1 ≤ s.clip_frames_remaining) ∧
  0 ≤ s.clip_frames_remaining

/-- The clip-write phase preserves the counter invariant, closes the session
exactly on the iteration the counter reaches `0`, and does nothing at all
when no session is active. -/
theorem clip_write_phase_counterInv (current_frame : Nat) (s : EngineState)
    (h : clipCounterInv s) :
    clipCounterInv (clip_write_phase current_frame s) ∧
    ((clip_write_phase current_frame s).closedCount = s.closedCount + 1 ↔
      s.current_clip_writer.isSome ∧
        (clip_write_phase current_frame s).clip_frames_remaining = 0) ∧
    (s.current_clip_writer = none → clip_write_phase current_frame s = s) := by
  obtain ⟨hact, hnn⟩ := h
  rcases hw : s.current_clip_writer with _ | w
  · refine ⟨?_, ?_, fun _ => by simp [clip_write_phase, hw]⟩
    · simpa [clip_write_phase, hw] using ⟨hact, hnn⟩
    · simp [clip_write_phase, hw]
  · have hone : 1 ≤ s.clip_frames_remaining := hact (by simp [hw])
    simp only [clip_write_phase, hw]
    split
    · rename_i hle
      constructor
      · constructor
        · intro hsome
          simp at hsome
        · simp
          omega
      · constructor
        · simp [hw]
          omega
        · simp [hw]
    · rename_i hgt
      push_neg at hgt
      constructor
      · constructor
        · intro _
          simp
          omega
        · simp
          omega
      · constructor
        · simp
          omega
        · simp

/-- Face processing preserves the counter invariant, provided a fresh session
starts with a positive counter. -/
theorem process_face_counterInv (p : RunParams)
    (hinit : 1 ≤ pyInt (p.fps * p.clip_duration)) (current_frame : Nat)
    (s : EngineState) (f : FaceObservation) (h : clipCounterInv s) :
    clipCounterInv (process_face p current_frame s f) := by
  obtain ⟨hact, hnn⟩ := h
  by_cases hm : (matchResult p.detection_threshold f.refResults).1
  · simp only [process_face, hm, if_true]
    split
    · exact ⟨fun _ => by simpa [start_video_clip] using hinit,
        by simpa [start_video_clip] using le_trans (by omega) hinit⟩
    · exact ⟨fun hs => hact (by simpa using hs), by simpa using hnn⟩
  · simpa [process_face, hm, clipCounterInv] using ⟨hact, hnn⟩

/-- One loop iteration preserves the counter invariant. -/
theorem step_frame_counterInv (p : RunParams)
    (hinit : 1 ≤ pyInt (p.fps * p.clip_duration)) (current_frame : Nat)
    (fd : FrameData) (s s' : EngineState)
    (hstep : step_frame p current_frame fd s = .ok s') (h : clipCounterInv s) :
    clipCounterInv s' := by
  have hclip := (clip_write_phase_counterInv current_frame s h).1
  unfold step_frame at hstep
  split at hstep
  · cases hstep
    exact hclip
  · cases hf : fd.faces with
    | none => rw [hf] at hstep; cases hstep
    | some faces =>
      rw [hf] at hstep
      cases hstep
      have hfold := foldl_process_face_pred p current_frame clipCounterInv
        (process_face_counterInv p hinit current_frame) faces
        (clip_write_phase current_frame s) hclip
      exact ⟨fun hs => hfold.1 (by simpa using hs), by simpa using hfold.2⟩

/-- C7 (amended): PROVIDED a session's initial counter `int(fps *
clipDurationSeconds)` is at least 1 — i.e. `fps * clipDurationSeconds ≥ 1` —
the counter of `process_video` is never negative (an active session always
has a positive counter and the field stays `≥ 0` through every phase and
every iteration), an idle iteration leaves the recorder untouched, and an
active session is closed exactly on the iteration in which the decremented
counter reaches `0` — so each session is closed exactly once.  When the
product is below 1 the session starts at `0` and the claim fails: see the
counterexample. -/
theorem C7_counter_nonneg_closed_once (p : RunParams)
    (hinit : 1 ≤ pyInt (p.fps * p.clip_duration)) :
    clipCounterInv initEngineState ∧
    (∀ (current_frame : Nat) (s : EngineState), clipCounterInv s →
      clipCounterInv (clip_write_phase current_frame s) ∧
      ((clip_write_phase current_frame s).closedCount = s.closedCount + 1 ↔
        s.current_clip_writer.isSome ∧
          (clip_write_phase current_frame s).clip_frames_remaining = 0) ∧
      (s.current_clip_writer = none → clip_write_phase current_frame s = s)) ∧
    (∀ (current_frame : Nat) (s : EngineState) (f : FaceObservation),
      clipCounterInv s → clipCounterInv (process_face p current_frame s f)) ∧
    (∀ (current_frame : Nat) (fd : FrameData) (s s' : EngineState),
      step_frame p current_frame fd s = .ok s' → clipCounterInv s → clipCounterInv s') :=
  ⟨⟨fun h => by simp [initEngineState] at h, by simp [initEngineState]⟩,
    clip_write_phase_counterInv,
    fun current_frame s f => process_face_counterInv p hinit current_frame s f,
    fun current_frame fd s s' => step_frame_counterInv p hinit current_frame fd s s'⟩

/-- The parameters instantiating C7's hypothesis: a 30 fps stream and a
2 second clip, so a session starts with 60 frames remaining. -/
def cex7P : RunParams :=
  { frame_skip := 1, detection_threshold := 1/2, mask_std_threshold := 20,
    clip_duration := 2, fps := 30, total_frames := 10 }

/-- C7 witness: the invariant holds of the fresh engine under the concrete
positive initial counter of `cex7P`. -/
theorem C7_witness : clipCounterInv initEngineState :=
  (C7_counter_nonneg_closed_once cex7P (by with_unfolding_all decide)).1

/-- A stream whose `fps * clipDurationSeconds` is below 1: `0.4 fps * 2 s
= 0.8`, so `int()` initialises the counter to `0`. -/
def cex7lowP : RunParams :=
  { frame_skip := 1, detection_threshold := 1/2, mask_std_threshold := 20,
    clip_duration := 2, fps := 2/5, total_frames := 10 }

/-- C7 counterexample: with `fps * clipDurationSeconds = 0.8 < 1` the session
opens with `framesRemaining = 0`; the next iteration's clip-write phase
decrements it to `-1` — the counter IS negative — and the session is closed
on the iteration its counter reaches `-1`, not `0`. -/
theorem C7_counterexample :
    (start_video_clip cex7lowP 0 initEngineState).clip_frames_remaining = 0 ∧
    (clip_write_phase 1 (start_video_clip cex7lowP 0 initEngineState)).clip_frames_remaining
      = -1 ∧
    ¬(0 ≤ (clip_write_phase 1
        (start_video_clip cex7lowP 0 initEngineState)).clip_frames_remaining) ∧
    (clip_write_phase 1 (start_video_clip cex7lowP 0 initEngineState)).closedCount = 1 := by
  refine ⟨?_, ?_, ?_, ?_⟩ <;> with_unfolding_all decide

/-! ## C10 : the frame that triggers a clip is never written into it -/

/-- An active session observed before iteration `bound`: it was opened on an
earlier iteration and every frame written into it lies strictly between its
opening index and `bound`. -/
def sessionWritesAfterOpen (bound : Nat) (w : ClipSession) : Prop :=
  w.openFrame < bound ∧ ∀ j ∈ w.writtenFrames, w.openFrame < j ∧ j < bound

/-- The clip-write invariant before processing frame `bound`: the active
session (if any) satisfies `sessionWritesAfterOpen`, except that a session
opened on iteration `bound - 1`'s analysis phase has `openFrame < bound`;
and every closed session holds only frames written strictly after it opened. -/
def clipWritesAfterOpen (bound : Nat) (s : EngineState) : Prop :=
  (match s.current_clip_writer with
   | none => True
   | some w => sessionWritesAfterOpen bound w) ∧
  ∀ w ∈ s.closedSessions, ∀ j ∈ w.writtenFrames, w.openFrame < j

/-- The clip-write phase of iteration `current_frame` preserves the
invariant, advancing the bound past the frame it wrote. -/
theorem clip_write_phase_writesAfterOpen (current_frame : Nat) (s : EngineState)
    (h : clipWritesAfterOpen current_frame s) :
    clipWritesAfterOpen (current_frame + 1) (clip_write_phase current_frame s) := by
  obtain ⟨hact, hclosed⟩ := h
  rcases hw : s.current_clip_writer with _ | w
  · have hid : clip_write_phase current_frame s = s := by
      simp [clip_write_phase, hw]
    rw [hid]
    exact ⟨by rw [hw]; exact trivial, hclosed⟩
  · rw [hw] at hact
    obtain ⟨hopen, hin⟩ := hact
    have hnew : ∀ j ∈ w.writtenFrames ++ [current_frame],
        w.openFrame < j ∧ j < current_frame + 1 := by
      intro j hj
      rcases List.mem_append.mp hj with hj | hj
      · obtain ⟨h1, h2⟩ := hin j hj
        exact ⟨h1, by omega⟩
      · rw [List.mem_singleton.mp hj]
        exact ⟨hopen, by omega⟩
    simp only [clip_write_phase, hw]
    split
    · refine ⟨by simp, ?_⟩
      intro v hv j hj
      simp only at hv hj
      rcases List.mem_append.mp hv with hv | hv
      · exact hclosed v hv j hj
      · rcases List.mem_singleton.mp hv with rfl
        simp only at hj
        exact (hnew j hj).1
    · refine ⟨⟨by simp; omega, ?_⟩, ?_⟩
      · intro j hj
        simp only at hj
        exact hnew j hj
      · intro v hv j hj
        simp only at hv
        exact hclosed v hv j hj

/-- Face processing on iteration `current_frame` preserves the invariant at
bound `current_frame + 1`: a session it opens has `openFrame =
current_frame` and no written frames yet. -/
theorem process_face_writesAfterOpen (p : RunParams) (current_frame : Nat)
    (s : EngineState) (f : FaceObservation)
    (h : clipWritesAfterOpen (current_frame + 1) s) :
    clipWritesAfterOpen (current_frame + 1) (process_face p current_frame s f) := by
  obtain ⟨hact, hclosed⟩ := h
  by_cases hm : (matchResult p.detection_threshold f.refResults).1
  · simp only [process_face, hm, if_true]
    split
    · refine ⟨?_, by simpa using hclosed⟩
      simp only [start_video_clip]
      exact ⟨Nat.lt_succ_self current_frame, by simp [sessionWritesAfterOpen]⟩
    · exact ⟨by simpa using hact, by simpa using hclosed⟩
  · simpa [process_face, hm, clipWritesAfterOpen] using ⟨hact, hclosed⟩

/-- One loop iteration preserves the invariant, advancing the bound. -/
theorem step_frame_writesAfterOpen (p : RunParams) (current_frame : Nat)
    (fd : FrameData) (s s' : EngineState)
    (hstep : step_frame p current_frame fd s = .ok s')
    (h : clipWritesAfterOpen current_frame s) :
    clipWritesAfterOpen (current_frame + 1) s' := by
  have hclip := clip_write_phase_writesAfterOpen current_frame s h
  unfold step_frame at hstep
  split at hstep
  · cases hstep
    exact hclip
  · cases hf : fd.faces with
    | none => rw [hf] at hstep; cases hstep
    | some faces =>
      rw [hf] at hstep
      cases hstep
      have hfold := foldl_process_face_pred p current_frame
        (clipWritesAfterOpen (current_frame + 1))
        (process_face_writesAfterOpen p current_frame) faces
        (clip_write_phase current_frame s) hclip
      exact ⟨by simpa using hfold.1, by simpa using hfold.2⟩

/-- The whole loop preserves the invariant, advancing the bound across all
consumed frames. -/
theorem run_loop_writesAfterOpen (p : RunParams) :
    ∀ (frames : List FrameData) (current_frame : Nat) (s s' : EngineState),
      run_loop p current_frame frames s = .ok s' →
      clipWritesAfterOpen current_frame s →
      clipWritesAfterOpen (current_frame + frames.length) s' := by
  intro frames
  induction frames with
  | nil =>
    intro i s s' h hinv
    simp only [run_loop] at h
    cases h
    simpa using hinv
  | cons fd rest ih =>
    intro i s s' h hinv
    simp only [run_loop] at h
    cases hs : step_frame p i fd s with
    | error e => rw [hs] at h; cases h
    | ok s1 =>
      rw [hs] at h
      have h1 := step_frame_writesAfterOpen p i fd s s1 hs hinv
      have h2 := ih (i + 1) s1 s' h h1
      have : i + 1 + rest.length = i + (fd :: rest).length := by
        simp [List.length_cons]
        omega
      rwa [this] at h2

/-- C10: in every normally terminated `process_video` run of a fresh engine,
the frame whose confirmed match opened a clip session is never among the
frames written into that session — clip writing happens at the top of an
iteration, before analysis, and a session opens only after the analysis of
its triggering frame, so the clip holds only frames read on later
iterations.  This holds for every closed session and for the session still
active at run end. -/
theorem C10_trigger_frame_not_written_to_clip (p : RunParams)
    (frames : List FrameData) (n : Nat) (s : EngineState)
    (h : process_video p frames initEngineState = .ok (n, s)) :
    (∀ w ∈ s.closedSessions, w.openFrame ∉ w.writtenFrames) ∧
    (∀ w : ClipSession, s.current_clip_writer = some w →
      w.openFrame ∉ w.writtenFrames) := by
  unfold process_video at h
  cases hr : run_loop p 0 (frames.take p.total_frames)
      { initEngineState with matchCount := 0 } with
  | error e => rw [hr] at h; cases h
  | ok sfin =>
    rw [hr] at h
    cases h
    have hinv0 : clipWritesAfterOpen 0 { initEngineState with matchCount := 0 } := by
      constructor
      · simp [initEngineState]
      · intro w hw
        simp [initEngineState] at hw
    have hinv := run_loop_writesAfterOpen p (frames.take p.total_frames) 0 _ _ hr hinv0
    obtain ⟨hact, hclosed⟩ := hinv
    constructor
    · intro w hw hmem
      exact absurd rfl (Nat.ne_of_lt (hclosed w hw w.openFrame hmem))
    · intro w hw hmem
      rw [hw] at hact
      exact absurd rfl (Nat.ne_of_lt (hact.2 w.openFrame hmem).1)

/-- The parameters of the C10 witness run: every frame analysed, `1 fps`
with a 2 second clip so a session spans two frames. -/
def cex10P : RunParams :=
  { frame_skip := 1, detection_threshold := 1/2, mask_std_threshold := 20,
    clip_duration := 2, fps := 1, total_frames := 3 }

/-- The witness video: its first frame triggers a match, the next two carry
no face. -/
def cex10Frames : List FrameData :=
  [cexFrame, { faces := some [] }, { faces := some [] }]

/-- The final state of the witness run (frame 0 opens a session, frames 1
and 2 are written into it and close it). -/
def cex10Final : EngineState :=
  match process_video cex10P cex10Frames initEngineState with
  | .ok r => r.2
  | .error _ => initEngineState

/-- The count the witness run returned. -/
def cex10Count : Nat :=
  match process_video cex10P cex10Frames initEngineState with
  | .ok r => r.1
  | .error _ => 0

/-- C10 witness: the theorem applied to the concrete three-frame run whose
closed session opened on frame 0 and recorded exactly frames 1 and 2. -/
theorem C10_witness :
    (∀ w ∈ cex10Final.closedSessions, w.openFrame ∉ w.writtenFrames) ∧
    (∀ w : ClipSession, cex10Final.current_clip_writer = some w →
      w.openFrame ∉ w.writtenFrames) :=
  C10_trigger_frame_not_written_to_clip cex10P cex10Frames cex10Count cex10Final
    (by with_unfolding_all rfl)
